import Mathlib

/-!
# Verification of the AVITO lead/catalog/order stack

Shallow embedding of the data-access and helper functions of the repository
(`src/app/db.py`, `src/app/main.py`, `src/shop_db.py`, `src/bot.py`) together
with proofs of the behavioural claims about them.

Database tables are modelled as Lean lists of rows; each store function
becomes a pure function from the old table state (plus the freshly generated
UUIDs and the current clock value `now`) to the new state.  SQL `NUMERIC`
values are modelled as exact rationals, timestamps as natural numbers.
-/

namespace Avito

/-! ## Python string primitives

Helpers mirroring the Python string operations used by the handlers.
Characters are compared by code point, as Python does.
-/

/-- Code points Python's `str.strip()` removes (the `str.isspace` set). -/
def pySpace (c : Char) : Bool :=
  c.toNat ∈ [0x09, 0x0a, 0x0b, 0x0c, 0x0d, 0x1c, 0x1d, 0x1e, 0x1f, 0x20,
             0x85, 0xa0, 0x1680,
             0x2000, 0x2001, 0x2002, 0x2003, 0x2004, 0x2005, 0x2006, 0x2007,
             0x2008, 0x2009, 0x200a, 0x2028, 0x2029, 0x202f, 0x205f, 0x3000]

/-- Python `s.strip()`: drop leading and trailing whitespace. -/
def pyStrip (s : String) : String :=
  String.mk (((s.data.dropWhile pySpace).reverse.dropWhile pySpace).reverse)

/-- Code points Python's `str.splitlines()` treats as line boundaries. -/
def pyLineBreak (c : Char) : Bool :=
  c.toNat ∈ [0x0a, 0x0b, 0x0c, 0x0d, 0x1c, 0x1d, 0x1e, 0x85, 0x2028, 0x2029]

/-- Split a character list at line-boundary characters.  Python's
`splitlines` treats `"\r\n"` as a single boundary and drops a trailing
empty line; splitting at every boundary character instead only differs by
extra empty segments, which every caller in the source filters out. -/
def splitBreaks : List Char → List (List Char)
  | [] => [[]]
  | c :: cs =>
    let r := splitBreaks cs
    if pyLineBreak c then [] :: r
    else
      match r with
      | [] => [[c]]
      | l :: ls => (c :: l) :: ls

/-- Python `s.splitlines()`, up to empty segments (see `splitBreaks`). -/
def pySplitlines (s : String) : List String :=
  (splitBreaks s.data).map String.mk

/-- Python string `<=`: lexicographic comparison by code point. -/
def codepointLe : List Char → List Char → Bool
  | [], _ => true
  | _ :: _, [] => false
  | a :: as, b :: bs =>
    if a.toNat < b.toNat then true
    else if b.toNat < a.toNat then false
    else codepointLe as bs

/-- Python string ordering on `String`. -/
def strLe (a b : String) : Bool := codepointLe a.data b.data

/-- Insert into a sorted list, before the first element not below `x`
(keeps earlier elements first on ties, giving a stable sort). -/
def insertLe {α : Type} (le : α → α → Bool) (x : α) : List α → List α
  | [] => [x]
  | y :: ys => if le x y then x :: y :: ys else y :: insertLe le x ys

/-- Stable insertion sort; models both Python's `list.sort()` and SQL
`ORDER BY` (every use below either has pairwise-distinct keys or projects a
value equal on tied keys, so tie order never shows in the results). -/
def sortLe {α : Type} (le : α → α → Bool) : List α → List α
  | [] => []
  | x :: xs => insertLe le x (sortLe le xs)

/-! ## `normalize_phone` (src/app/main.py)

`PHONE_RE = re.compile(r"\D+")` strips every non-digit character; digits are
modelled as ASCII `0`-`9` (`Char.isDigit`), the only digits the subsequent
`startswith("8")` / `startswith("7")` checks can interact with. -/

/-- `normalize_phone` from src/app/main.py, translated statement by
statement (the three sequential reassignments of `s` become nested lets;
strings are processed as their character lists, `startswith` becoming
`isPrefixOf`). -/
def normalize_phone (raw : String) : String :=
  let s := raw.data.filter Char.isDigit
  let s := if s.length == 11 && ['8'].isPrefixOf s then '7' :: s.drop 1 else s
  let s := if s.length == 10 then '7' :: s else s
  if s.length != 11 || !(['7'].isPrefixOf s) then "" else String.mk ('+' :: s)

/-- The claim's own description of phone normalization, written from the
spec's words: strip non-digits; rewrite a leading `8` of an 11-digit string
to `7`; prepend `7` to a bare 10-digit string; reject (empty string) unless
the result is exactly 11 digits starting with `7`, else return `+` plus the
digits. -/
def claimed_normalize_phone (raw : String) : String :=
  let ds := raw.data.filter Char.isDigit
  let t :=
    if ds.length = 11 ∧ ['8'].isPrefixOf ds then '7' :: ds.drop 1
    else if ds.length = 10 then '7' :: ds
    else ds
  if t.length = 11 ∧ ['7'].isPrefixOf t then String.mk ('+' :: t) else ""

/-! ## `parse_images_text` (src/app/main.py) -/

/-- Python `s.startswith(p)`. -/
def pyStartsWith (s p : String) : Bool := p.data.isPrefixOf s.data

/-- The "минимальная фильтрация" test of `parse_images_text`. -/
def isHttpUrl (url : String) : Bool :=
  pyStartsWith url "http://" || pyStartsWith url "https://"

/-- First loop of `parse_images_text`: strip each line, skip empty lines,
keep those passing the `http(s)://` filter. -/
def collectUrls : List String → List String
  | [] => []
  | line :: rest =>
    let url := pyStrip line
    if url = "" then collectUrls rest
    else if isHttpUrl url then url :: collectUrls rest
    else collectUrls rest

/-- Second loop of `parse_images_text`: drop duplicates, keeping the first
occurrence (the Python `seen` set is modelled as the list of already-kept
values). -/
def dedupFirst : List String → List String → List String
  | _, [] => []
  | seen, u :: us =>
    if seen.contains u then dedupFirst seen us
    else u :: dedupFirst (u :: seen) us

/-- `parse_images_text` from src/app/main.py. -/
def parse_images_text (images_text : String) : List String :=
  dedupFirst [] (collectUrls (pySplitlines images_text))

/-- The claim's description of duplicate removal, written from its words
("duplicate URLs removed while preserving the order of first occurrence"):
keep the first element where it stands and delete every later copy of it,
leaving the order of the rest untouched. -/
def dedupSpecFirst : List String → List String
  | [] => []
  | x :: xs => x :: (dedupSpecFirst xs).filter (fun y => !(y == x))

/-! ## The `leads` table (src/app/db.py) -/

/-- A row of the `leads` table, per `init_db` in src/app/db.py, plus the
`full_name` / `city` / `interest` profile columns that src/bot.py reads and
writes (their migration and accessor are not under src/, see
`update_lead_profile`).  Nullable columns are `Option`, timestamps `Nat`. -/
structure Lead where
  id : String
  phone : String
  source : String
  model_code : Option String
  name : Option String
  segment : String
  status : String
  note : String
  last_contact_at : Option Nat
  remind_at : Option Nat
  created_at : Nat
  full_name : Option String
  city : Option String
  interest : Option String
deriving DecidableEq

/-- `append_lead_note` from src/app/db.py: `strip` the incoming text,
return unchanged on blank input, otherwise run the SQL `UPDATE` that
prepends the text to `note` (with a blank line unless `note` is empty) and
stamps `last_contact_at = NOW()` on every row whose id matches. -/
def append_lead_note (db : List Lead) (lead_id : String) (note_text : String)
    (now : Nat) : List Lead :=
  let t := pyStrip note_text
  if t = "" then db
  else
    db.map fun l =>
      if l.id = lead_id then
        { l with
          note := if l.note = "" then t else t ++ "\n\n" ++ l.note,
          last_contact_at := some now }
      else l

/-- Modelled from the spec: `update_lead_profile` is imported from `app.db`
by `db_update_profile` (src/bot.py line 97) but src/app/db.py does not
define it.  Spec §4.1: "partially update profile fields (full name / city /
interest), skipping any field not supplied, trimming whitespace, and always
stamping last-contact". -/
def update_lead_profile (db : List Lead) (lead_id : String)
    (full_name city interest : Option String) (now : Nat) : List Lead :=
  db.map fun l =>
    if l.id = lead_id then
      { l with
        full_name := match full_name with
          | some v => some (pyStrip v)
          | none => l.full_name,
        city := match city with
          | some v => some (pyStrip v)
          | none => l.city,
        interest := match interest with
          | some v => some (pyStrip v)
          | none => l.interest,
        last_contact_at := some now }
    else l

/-! ## Catalog tables (src/app/db.py) -/

/-- A row of `catalog_models`. -/
structure CatalogModel where
  code : String
  name : String
  short : String
  price_drawings : Int
  drawings_url : String
  updated_at : Nat
deriving DecidableEq

/-- A row of `catalog_kits`. -/
structure CatalogKit where
  id : String
  model_code : String
  material : String
  price : Int
deriving DecidableEq

/-- A row of `catalog_images`. -/
structure CatalogImage where
  id : String
  model_code : String
  url : String
  sort_order : Int
deriving DecidableEq

/-- The three catalog tables. -/
structure CatalogDB where
  models : List CatalogModel
  kits : List CatalogKit
  images : List CatalogImage
deriving DecidableEq

/-- The insert loop of `replace_images`: `order_num` starts at 0 and is
incremented before each insert, so the rows carry `sort_order = 1, 2, …` in
list order.  `fresh i` stands for the `uuid.uuid4()` of the i-th insert. -/
def insertImagesFrom (model_code : String) (fresh : Nat → String) :
    Nat → List String → List CatalogImage
  | _, [] => []
  | order_num, url :: rest =>
    { id := fresh order_num, model_code := model_code, url := url,
      sort_order := ((order_num : Int) + 1) } ::
    insertImagesFrom model_code fresh (order_num + 1) rest

/-- `replace_images` from src/app/db.py: delete every image row of the
model, then insert the given URLs renumbered from 1 (`urls = urls or []` is
the identity on an already-present list). -/
def replace_images (db : CatalogDB) (model_code : String) (urls : List String)
    (fresh : Nat → String) : CatalogDB :=
  { db with images :=
      db.images.filter (fun im => !(im.model_code == model_code)) ++
      insertImagesFrom model_code fresh 0 urls }

/-- The ordering used by `get_model`'s image query:
`ORDER BY sort_order ASC, url ASC`. -/
def imageLe (a b : CatalogImage) : Bool :=
  a.sort_order < b.sort_order ||
  (a.sort_order == b.sort_order && strLe a.url b.url)

/-- The result shape of `get_model`: the selected model columns plus the
attached `kits` (material, price) and image-URL lists. -/
structure ModelView where
  code : String
  name : String
  short : String
  price_drawings : Int
  drawings_url : String
  kits : List (String × Int)
  images : List String
deriving DecidableEq

/-- `get_model` from src/app/db.py: fetch the model row by code (`None`
when absent), its kits ordered by material, and its image URLs ordered by
`sort_order ASC, url ASC`. -/
def get_model (db : CatalogDB) (code : String) : Option ModelView :=
  match db.models.find? (fun m => m.code == code) with
  | none => none
  | some m =>
    let kits := (sortLe (fun a b => strLe a.material b.material)
        (db.kits.filter (fun k => k.model_code == code))).map
        fun k => (k.material, k.price)
    let images := (sortLe imageLe
        (db.images.filter (fun im => im.model_code == code))).map
        CatalogImage.url
    some { code := m.code, name := m.name, short := m.short,
           price_drawings := m.price_drawings, drawings_url := m.drawings_url,
           kits := kits, images := images }

/-! ## The order ledger (src/shop_db.py) -/

/-- A row of `clients`.  `tg_id BIGINT UNIQUE` is an `Int`. -/
structure Client where
  id : String
  tg_id : Int
  phone : String
  name : String
  address : String
  created_at : Nat
deriving DecidableEq

/-- A row of `products`.  `NUMERIC(12,2)` prices are exact rationals. -/
structure Product where
  id : String
  code : String
  name : String
  description : String
  unit : String
  price : ℚ
  created_at : Nat
deriving DecidableEq

/-- A row of `orders`. -/
structure Order where
  id : String
  client_id : Option String
  created_at : Nat
  status : String
  total_amount : ℚ
  shipped_at : Option Nat
  delivered_at : Option Nat
  paid_at : Option Nat
deriving DecidableEq

/-- A row of `order_items`. -/
structure OrderItem where
  id : String
  order_id : String
  product_id : Option String
  quantity : ℚ
  price : ℚ
  amount : ℚ
deriving DecidableEq

/-- A row of `payments`. -/
structure Payment where
  id : String
  order_id : String
  amount : ℚ
  payment_date : Nat
  method : String
deriving DecidableEq

/-- The five shop tables. -/
structure ShopDB where
  clients : List Client
  products : List Product
  orders : List Order
  order_items : List OrderItem
  payments : List Payment
deriving DecidableEq

/-- The unguarded INSERT path of `insert_client` (src/shop_db.py): the
`tg_id BIGINT UNIQUE` constraint makes the INSERT raise (`Except.error`,
nothing committed) when a row with the same `tg_id` already exists.
`fresh` is the generated `uuid.uuid4()`. -/
def insertClientRow (db : ShopDB) (fresh : String) (tg_id : Int)
    (phone name address : String) (now : Nat) :
    Except Unit (String × ShopDB) :=
  if db.clients.any (fun c => c.tg_id == tg_id) then Except.error ()
  else Except.ok (fresh, { db with clients := db.clients ++
    [{ id := fresh, tg_id := tg_id, phone := phone, name := name,
       address := address, created_at := now }] })

/-- `insert_client` from src/shop_db.py: Python's `if tg_id:` is `tg_id ≠ 0`
(the function types `tg_id` as `int`); a hit of the guarded lookup returns
the existing id unchanged, otherwise the row is inserted. -/
def insert_client (db : ShopDB) (fresh : String) (tg_id : Int)
    (phone name address : String) (now : Nat) : Except Unit (String × ShopDB) :=
  if tg_id ≠ 0 then
    match db.clients.find? (fun c => c.tg_id == tg_id) with
    | some row => Except.ok (row.id, db)
    | none => insertClientRow db fresh tg_id phone name address now
  else insertClientRow db fresh tg_id phone name address now

/-- `create_order` from src/shop_db.py. -/
def create_order (db : ShopDB) (fresh : String) (client_id : String)
    (now : Nat) : ShopDB :=
  { db with orders := db.orders ++
      [{ id := fresh, client_id := some client_id, created_at := now,
         status := "new", total_amount := 0, shipped_at := none,
         delivered_at := none, paid_at := none }] }

/-- `add_order_item` from src/shop_db.py: `amount = (quantity or 0) *
(price or 0)` computed at insertion (`or 0` only guards a `None` argument,
which the `float` signature excludes). -/
def add_order_item (db : ShopDB) (fresh : String) (order_id : String)
    (product_id : Option String) (quantity price : ℚ) : ShopDB :=
  let amount := quantity * price
  { db with order_items := db.order_items ++
      [{ id := fresh, order_id := order_id, product_id := product_id,
         quantity := quantity, price := price, amount := amount }] }

/-- `update_order_total` from src/shop_db.py: `COALESCE(SUM(amount), 0)`
over the order's items (sum of the empty list is 0), written into
`total_amount` of every order row whose id matches. -/
def update_order_total (db : ShopDB) (order_id : String) : ShopDB :=
  let total := ((db.order_items.filter
      (fun oi => oi.order_id == order_id)).map OrderItem.amount).sum
  { db with orders := db.orders.map fun o =>
      if o.id = order_id then { o with total_amount := total } else o }

/-- `set_order_status` from src/shop_db.py: sets `status` and additionally
stamps `shipped_at` / `delivered_at` / `paid_at` when `status` is that
literal.  For the status string `"NOW()"` the loop emits `SET status =
NOW()` instead of a parameter; Postgres rejects assigning a `timestamptz`
to the TEXT `status` column, so the UPDATE raises and nothing is committed
(`Except.error`). -/
def set_order_status (db : ShopDB) (order_id status : String) (now : Nat) :
    Except Unit ShopDB :=
  if status = "NOW()" then Except.error ()
  else Except.ok { db with orders := db.orders.map fun o =>
    if o.id = order_id then
      { o with
        status := status,
        shipped_at := if status = "shipped" then some now else o.shipped_at,
        delivered_at := if status = "delivered" then some now else o.delivered_at,
        paid_at := if status = "paid" then some now else o.paid_at }
    else o }

/-- `record_payment` from src/shop_db.py: insert a payment row
(`payment_date` defaults to `NOW()`), then unconditionally set the order's
status to `'paid'` and stamp `paid_at = NOW()`. -/
def record_payment (db : ShopDB) (fresh : String) (order_id : String)
    (amount : ℚ) (method : String) (now : Nat) : ShopDB :=
  { db with
    payments := db.payments ++
      [{ id := fresh, order_id := order_id, amount := amount,
         payment_date := now, method := method }],
    orders := db.orders.map fun o =>
      if o.id = order_id then { o with status := "paid", paid_at := some now }
      else o }

/-! ## SHA-256 and HMAC (Python `hashlib` / `hmac`, used by
`telegram_check_auth` in src/app/main.py)

Bytes and 32-bit words are naturals reduced mod 2⁸ / 2³². -/

/-- Truncate to a 32-bit word. -/
def w32 (n : Nat) : Nat := n % 4294967296

/-- 32-bit right rotation. -/
def rotr32 (x n : Nat) : Nat := w32 ((x >>> n) ||| (x <<< (32 - n)))

/-- The 64 SHA-256 round constants of FIPS 180-4 (decimal). -/
def shaK : List Nat :=
  [1116352408, 1899447441, 3049323471, 3921009573, 961987163,
   1508970993, 2453635748, 2870763221, 3624381080, 310598401,
   607225278, 1426881987, 1925078388, 2162078206, 2614888103,
   3248222580, 3835390401, 4022224774, 264347078, 604807628,
   770255983, 1249150122, 1555081692, 1996064986, 2554220882,
   2821834349, 2952996808, 3210313671, 3336571891, 3584528711,
   113926993, 338241895, 666307205, 773529912, 1294757372,
   1396182291, 1695183700, 1986661051, 2177026350, 2456956037,
   2730485921, 2820302411, 3259730800, 3345764771, 3516065817,
   3600352804, 4094571909, 275423344, 430227734, 506948616,
   659060556, 883997877, 958139571, 1322822218, 1537002063,
   1747873779, 1955562222, 2024104815, 2227730452, 2361852424,
   2428436474, 2756734187, 3204031479, 3329325298]

/-- The initial SHA-256 hash state of FIPS 180-4 (decimal). -/
def shaH0 : List Nat :=
  [1779033703, 3144134277, 1013904242, 2773480762,
   1359893119, 2600822924, 528734635, 1541459225]

/-- Σ₀. -/
def bigSigma0 (x : Nat) : Nat := rotr32 x 2 ^^^ rotr32 x 13 ^^^ rotr32 x 22

/-- Σ₁. -/
def bigSigma1 (x : Nat) : Nat := rotr32 x 6 ^^^ rotr32 x 11 ^^^ rotr32 x 25

/-- σ₀. -/
def smallSigma0 (x : Nat) : Nat := rotr32 x 7 ^^^ rotr32 x 18 ^^^ (x >>> 3)

/-- σ₁. -/
def smallSigma1 (x : Nat) : Nat := rotr32 x 17 ^^^ rotr32 x 19 ^^^ (x >>> 10)

/-- Ch; `¬x` is complement within 32 bits. -/
def chFn (x y z : Nat) : Nat := (x &&& y) ^^^ ((x ^^^ 0xffffffff) &&& z)

/-- Maj. -/
def majFn (x y z : Nat) : Nat := (x &&& y) ^^^ (x &&& z) ^^^ (y &&& z)

/-- Big-endian byte encoding of `n` in `k` bytes. -/
def beBytes : Nat → Nat → List Nat
  | 0, _ => []
  | k + 1, n => beBytes k (n >>> 8) ++ [n % 256]

/-- Group 4 consecutive bytes into big-endian 32-bit words. -/
def bytesToWords : List Nat → List Nat
  | b0 :: b1 :: b2 :: b3 :: rest =>
    (((b0 * 256 + b1) * 256 + b2) * 256 + b3) :: bytesToWords rest
  | _ => []

/-- Split into chunks of `n` (fuelled by the list length, so total). -/
def chunksAux {α : Type} (n : Nat) : Nat → List α → List (List α)
  | 0, _ => []
  | _, [] => []
  | fuel + 1, l => l.take n :: chunksAux n fuel (l.drop n)

/-- Split a list into chunks of `n` elements. -/
def chunks {α : Type} (n : Nat) (l : List α) : List (List α) :=
  chunksAux n l.length l

/-- SHA-256 padding: `0x80`, zeros to 56 mod 64, 8-byte bit length. -/
def padMessage (msg : List Nat) : List Nat :=
  let l := msg.length
  msg ++ [0x80] ++ List.replicate ((64 + 55 - l % 64) % 64) 0 ++
    beBytes 8 (8 * l)

/-- Extend the 16 block words to the 64-entry message schedule. -/
def buildW (block : List Nat) : List Nat :=
  (List.range 48).foldl
    (fun w i =>
      let t := i + 16
      w ++ [w32 (smallSigma1 (w.getD (t - 2) 0) + w.getD (t - 7) 0 +
                 smallSigma0 (w.getD (t - 15) 0) + w.getD (t - 16) 0)])
    block

/-- One round of the SHA-256 compression function on the 8-word state. -/
def compressRound (k w : Nat) (s : List Nat) : List Nat :=
  match s with
  | [a, b, c, d, e, f, g, h] =>
    let t1 := w32 (h + bigSigma1 e + chFn e f g + k + w)
    let t2 := w32 (bigSigma0 a + majFn a b c)
    [w32 (t1 + t2), a, b, c, w32 (d + t1), e, f, g]
  | _ => s

/-- Compress one 16-word block into the running hash state. -/
def compressBlock (h : List Nat) (block : List Nat) : List Nat :=
  let w := buildW block
  let s := (List.range 64).foldl
    (fun s t => compressRound (shaK.getD t 0) (w.getD t 0) s) h
  (h.zip s).map fun p => w32 (p.1 + p.2)

/-- SHA-256 of a byte list, as a 32-byte list. -/
def sha256 (msg : List Nat) : List Nat :=
  let final := (chunks 64 (padMessage msg)).foldl
    (fun h b => compressBlock h (bytesToWords b)) shaH0
  (final.map (beBytes 4)).flatten

/-- HMAC-SHA-256 (RFC 2104, as implemented by Python's `hmac`). -/
def hmacSha256 (key msg : List Nat) : List Nat :=
  let key := if key.length > 64 then sha256 key else key
  let key := key ++ List.replicate (64 - key.length) 0
  sha256 ((key.map fun b => b ^^^ 0x5c) ++
          sha256 ((key.map fun b => b ^^^ 0x36) ++ msg))

/-- Lowercase hex character for a nibble. -/
def hexChar (n : Nat) : Char := "0123456789abcdef".data.getD n '0'

/-- Python `hexdigest()`: lowercase hex of the byte list. -/
def hexDigest (bytes : List Nat) : String :=
  String.mk ((bytes.map fun b => [hexChar (b / 16), hexChar (b % 16)]).flatten)

/-- UTF-8 encoding of one character (Python `str.encode()`). -/
def utf8Char (c : Char) : List Nat :=
  let n := c.toNat
  if n < 128 then [n]
  else if n < 2048 then [192 + n / 64, 128 + n % 64]
  else if n < 65536 then
    [224 + n / 4096, 128 + n / 64 % 64, 128 + n % 64]
  else
    [240 + n / 262144, 128 + n / 4096 % 64, 128 + n / 64 % 64, 128 + n % 64]

/-- UTF-8 bytes of a string. -/
def strBytes (s : String) : List Nat := (s.data.map utf8Char).flatten

/-! ## `telegram_check_auth` (src/app/main.py)

The callback payload `data: dict` is an insertion-ordered map with unique
keys, modelled as a key-value list; `dictGet` is Python dict lookup. -/

/-- Python `data[k]` / `k in data` on the payload. -/
def dictGet (data : List (String × String)) (k : String) : Option String :=
  (data.find? fun p => p.1 == k).map Prod.snd

/-- The `data_check_string`: `"k=v"` pairs of every non-`hash` entry,
sorted, joined by newlines. -/
def dataCheckString (data : List (String × String)) : String :=
  let pairs := (data.filter fun p => !(p.1 == "hash")).map
    fun p => p.1 ++ "=" ++ p.2
  String.intercalate "\n" (sortLe strLe pairs)

/-- `telegram_check_auth` from src/app/main.py: recompute the HMAC-SHA-256
of the data-check string under the key SHA-256(bot_token) and compare its
hex digest with the payload's `hash` field; absent `hash` fails. -/
def telegram_check_auth (data : List (String × String)) (bot_token : String) :
    Bool :=
  match dictGet data "hash" with
  | none => false
  | some check_hash =>
    let secret_key := sha256 (strBytes bot_token)
    let hmac_hash := hexDigest (hmacSha256 secret_key
      (strBytes (dataCheckString data)))
    hmac_hash == check_hash

/-- The non-`hash` fields of a sample Telegram login payload. -/
def authFields : List (String × String) :=
  [("id", "42"), ("first_name", "Alice"), ("auth_date", "1700000000")]

/-- A sample bot token. -/
def sampleToken : String := "123456:TestToken"

/-- The correct hex HMAC for `authFields` under `sampleToken`. -/
def goodHash : String :=
  hexDigest (hmacSha256 (sha256 (strBytes sampleToken))
    (strBytes (dataCheckString authFields)))

/-- `authFields` plus its correctly computed `hash`. -/
def goodPayload : List (String × String) := authFields ++ [("hash", goodHash)]

/-- `goodPayload` with the `id` field tampered but the `hash` unchanged. -/
def tamperedPayload : List (String × String) :=
  [("id", "43"), ("first_name", "Alice"), ("auth_date", "1700000000"),
   ("hash", goodHash)]

/-! ## Concrete example states used by witnesses and counterexamples -/

/-- A lead whose note is `"A"`. -/
def exampleLeadA : Lead :=
  { id := "L1", phone := "+79991234567", source := "qr",
    model_code := some "polar-6", name := none, segment := "unknown",
    status := "new", note := "A", last_contact_at := none, remind_at := none,
    created_at := 0, full_name := none, city := none, interest := none }

/-- A catalog with one model and no images. -/
def exampleCatalog : CatalogDB :=
  { models := [{ code := "polar-6", name := "Polar 6", short := "",
                 price_drawings := 0, drawings_url := "", updated_at := 0 }],
    kits := [], images := [] }

/-- `exampleCatalog` after replacing the model's images with `u1`, `u2`. -/
def exampleCatalog2 : CatalogDB :=
  replace_images exampleCatalog "polar-6" ["u1", "u2"]
    (fun i => "img-" ++ toString i)

/-- An empty shop database. -/
def exampleShopEmpty : ShopDB :=
  { clients := [], products := [], orders := [], order_items := [],
    payments := [] }

/-- A shop with a single client whose `tg_id` is 0. -/
def zeroClientShop : ShopDB :=
  { exampleShopEmpty with clients :=
      [{ id := "u1", tg_id := 0, phone := "+70000000001", name := "",
         address := "", created_at := 0 }] }

/-- A shop with one order `O1` in status `new`. -/
def exampleOrderShop : ShopDB :=
  { exampleShopEmpty with orders :=
      [{ id := "O1", client_id := some "C1", created_at := 0,
         status := "new", total_amount := 100, shipped_at := none,
         delivered_at := none, paid_at := none }] }

/-- The spec's order-total scenario: create an order, add items
(qty 2 × price 10) and (qty 1 × price 5), recompute the total. -/
def exampleOrderFlow : ShopDB :=
  update_order_total
    (add_order_item
      (add_order_item (create_order exampleShopEmpty "O1" "C1" 0)
        "I1" "O1" none 2 10)
      "I2" "O1" none 1 5)
    "O1"

end Avito

namespace Avito

/-! ## Shared helper lemmas -/

/-- A mapped list is pointwise related to the original. -/
theorem forall₂_map_self {α : Type} (f : α → α) (R : α → α → Prop)
    (l : List α) (h : ∀ x ∈ l, R x (f x)) : List.Forall₂ R l (l.map f) := by
  induction l with
  | nil => exact List.Forall₂.nil
  | cons x xs ih =>
    exact List.Forall₂.cons (h x (List.Mem.head xs))
      (ih fun y hy => h y (List.Mem.tail x hy))

/-- Inserting below every element puts the element in front. -/
theorem insertLe_of_le {α : Type} (le : α → α → Bool) (x : α) (l : List α)
    (h : ∀ y ∈ l, le x y = true) : insertLe le x l = x :: l := by
  cases l with
  | nil => rfl
  | cons y ys => simp [insertLe, h y (List.Mem.head ys)]

/-- A list already sorted for `le` is a fixed point of `sortLe`. -/
theorem sortLe_eq_self {α : Type} (le : α → α → Bool) (l : List α)
    (h : l.Pairwise fun a b => le a b = true) : sortLe le l = l := by
  induction l with
  | nil => rfl
  | cons x xs ih =>
    rw [sortLe, ih (List.Pairwise.of_cons h)]
    exact insertLe_of_le le x xs (List.pairwise_cons.mp h).1

end Avito

namespace Avito

/-- C1: for every lead id, `update_lead_profile` leaves non-matching rows
untouched and, on the matching row, overwrites exactly the supplied profile
fields with their trimmed values, keeps unsupplied fields and all other
columns, and always stamps `last_contact_at = now`. -/
theorem update_lead_profile_correct (db : List Lead) (lead_id : String)
    (full_name city interest : Option String) (now : Nat) :
    List.Forall₂ (fun l l' =>
      (l.id ≠ lead_id → l' = l) ∧
      (l.id = lead_id →
        l'.full_name = (match full_name with
          | some v => some (pyStrip v)
          | none => l.full_name) ∧
        l'.city = (match city with
          | some v => some (pyStrip v)
          | none => l.city) ∧
        l'.interest = (match interest with
          | some v => some (pyStrip v)
          | none => l.interest) ∧
        l'.last_contact_at = some now ∧
        l'.id = l.id ∧ l'.phone = l.phone ∧ l'.source = l.source ∧
        l'.model_code = l.model_code ∧ l'.name = l.name ∧
        l'.segment = l.segment ∧ l'.status = l.status ∧
        l'.note = l.note ∧ l'.remind_at = l.remind_at ∧
        l'.created_at = l.created_at))
      db (update_lead_profile db lead_id full_name city interest now) := by
  apply forall₂_map_self
  intro l _
  by_cases h : l.id = lead_id <;> simp [h]

/-- C2: `record_payment` appends exactly one payment row carrying the given
order id, amount and method, and — for every amount, with no comparison
against the order's total — sets every matching order's status to `"paid"`
and stamps `paid_at`, leaving all other order fields, other orders and the
other tables unchanged. -/
theorem record_payment_correct (db : ShopDB) (fresh order_id : String)
    (amount : ℚ) (method : String) (now : Nat) :
    (record_payment db fresh order_id amount method now).payments =
      db.payments ++ [{ id := fresh, order_id := order_id, amount := amount,
                        payment_date := now, method := method }] ∧
    List.Forall₂ (fun o o' =>
      (o.id ≠ order_id → o' = o) ∧
      (o.id = order_id →
        o'.status = "paid" ∧ o'.paid_at = some now ∧
        o'.id = o.id ∧ o'.client_id = o.client_id ∧
        o'.created_at = o.created_at ∧ o'.total_amount = o.total_amount ∧
        o'.shipped_at = o.shipped_at ∧ o'.delivered_at = o.delivered_at))
      db.orders (record_payment db fresh order_id amount method now).orders ∧
    (record_payment db fresh order_id amount method now).clients =
      db.clients ∧
    (record_payment db fresh order_id amount method now).products =
      db.products ∧
    (record_payment db fresh order_id amount method now).order_items =
      db.order_items := by
  refine ⟨rfl, ?_, rfl, rfl, rfl⟩
  apply forall₂_map_self
  intro o _
  by_cases h : o.id = order_id <;> simp [h]

/-- C3 (counterexample): the claim quantifies over every status string, but
for the status string `"NOW()"` the update is built as `SET status = NOW()`
and fails, so the status field is not set to that string. -/
theorem set_order_status_counterexample :
    set_order_status exampleOrderShop "O1" "NOW()" 5 = Except.error () := by
  rfl

/-- C3 (amended): for every status string other than `"NOW()"`,
`set_order_status` sets `status` on the matching orders, stamps
`shipped_at` / `delivered_at` / `paid_at` exactly when the status is that
literal (any other value, including `"submitted"` and `"confirmed"`, leaves
all three unchanged), and touches nothing else. -/
theorem set_order_status_correct (db : ShopDB) (order_id status : String)
    (now : Nat) (h : status ≠ "NOW()") :
    ∃ db', set_order_status db order_id status now = Except.ok db' ∧
      db'.clients = db.clients ∧ db'.products = db.products ∧
      db'.order_items = db.order_items ∧ db'.payments = db.payments ∧
      List.Forall₂ (fun o o' =>
        (o.id ≠ order_id → o' = o) ∧
        (o.id = order_id →
          o'.status = status ∧
          o'.shipped_at =
            (if status = "shipped" then some now else o.shipped_at) ∧
          o'.delivered_at =
            (if status = "delivered" then some now else o.delivered_at) ∧
          o'.paid_at =
            (if status = "paid" then some now else o.paid_at) ∧
          o'.id = o.id ∧ o'.client_id = o.client_id ∧
          o'.created_at = o.created_at ∧
          o'.total_amount = o.total_amount))
        db.orders db'.orders := by
  unfold set_order_status
  rw [if_neg h]
  refine ⟨_, rfl, rfl, rfl, rfl, rfl, ?_⟩
  apply forall₂_map_self
  intro o _
  by_cases ho : o.id = order_id <;> simp [ho]

/-- C3 (witness): the amended theorem applied to a concrete order and the
status `"submitted"`, which is not stamped. -/
theorem set_order_status_correct_witness :
    ∃ db', set_order_status exampleOrderShop "O1" "submitted" 5 =
        Except.ok db' ∧
      db'.clients = exampleOrderShop.clients ∧
      db'.products = exampleOrderShop.products ∧
      db'.order_items = exampleOrderShop.order_items ∧
      db'.payments = exampleOrderShop.payments ∧
      List.Forall₂ (fun o o' =>
        (o.id ≠ "O1" → o' = o) ∧
        (o.id = "O1" →
          o'.status = "submitted" ∧
          o'.shipped_at =
            (if "submitted" = "shipped" then some 5 else o.shipped_at) ∧
          o'.delivered_at =
            (if "submitted" = "delivered" then some 5 else o.delivered_at) ∧
          o'.paid_at =
            (if "submitted" = "paid" then some 5 else o.paid_at) ∧
          o'.id = o.id ∧ o'.client_id = o.client_id ∧
          o'.created_at = o.created_at ∧
          o'.total_amount = o.total_amount))
        exampleOrderShop.orders db'.orders :=
  set_order_status_correct exampleOrderShop "O1" "submitted" 5 (by decide)

end Avito

namespace Avito

/-- C4: `normalize_phone` behaves exactly as the spec describes, and the
spec's four worked examples hold. -/
theorem normalize_phone_spec_correct :
    (∀ raw, normalize_phone raw = claimed_normalize_phone raw) ∧
    normalize_phone "89991234567" = "+79991234567" ∧
    normalize_phone "9991234567" = "+79991234567" ∧
    normalize_phone "+7 (999) 123-45-67" = "+79991234567" ∧
    normalize_phone "12345" = "" := by
  refine ⟨fun raw => ?_, by decide, by decide, by decide, by decide⟩
  unfold normalize_phone claimed_normalize_phone
  set ds := raw.data.filter Char.isDigit with hds
  by_cases h11 : ds.length = 11 <;>
    by_cases h8 : ['8'].isPrefixOf ds = true <;>
    by_cases h7 : ['7'].isPrefixOf ds = true <;>
    by_cases h10 : ds.length = 10 <;>
    simp [h11, h8, h7, h10, List.isPrefixOf, List.length_drop]

end Avito

namespace Avito

/-- C5 (counterexample): the claim says non-blank text B is prepended as
is, but the code strips it first: appending `" B "` to a lead whose note is
`"A"` stores `"B\n\nA"`, not `" B \n\nA"`. -/
theorem append_lead_note_counterexample :
    (append_lead_note [exampleLeadA] "L1" " B " 5).map Lead.note =
      ["B\n\nA"] ∧
    (append_lead_note [exampleLeadA] "L1" " B " 5).map Lead.note ≠
      [" B \n\nA"] := by
  constructor <;> decide

/-- C5 (amended): blank (empty or whitespace-only) input is a no-op; for
non-blank input, the stripped text is prepended to the matching lead's note
— becoming the whole note when the note was empty, otherwise joined to the
old note by a blank line — `last_contact_at` is stamped, every other column
and every other row is unchanged. -/
theorem append_lead_note_correct (db : List Lead) (lead_id note_text : String)
    (now : Nat) :
    (pyStrip note_text = "" → append_lead_note db lead_id note_text now = db) ∧
    (pyStrip note_text ≠ "" →
      List.Forall₂ (fun l l' =>
        (l.id ≠ lead_id → l' = l) ∧
        (l.id = lead_id →
          l'.note = (if l.note = "" then pyStrip note_text
                     else pyStrip note_text ++ "\n\n" ++ l.note) ∧
          l'.last_contact_at = some now ∧
          l'.id = l.id ∧ l'.phone = l.phone ∧ l'.source = l.source ∧
          l'.model_code = l.model_code ∧ l'.name = l.name ∧
          l'.segment = l.segment ∧ l'.status = l.status ∧
          l'.remind_at = l.remind_at ∧ l'.created_at = l.created_at ∧
          l'.full_name = l.full_name ∧ l'.city = l.city ∧
          l'.interest = l.interest))
        db (append_lead_note db lead_id note_text now)) := by
  constructor
  · intro hblank
    unfold append_lead_note
    rw [if_pos hblank]
  · intro hblank
    unfold append_lead_note
    rw [if_neg hblank]
    apply forall₂_map_self
    intro l _
    by_cases h : l.id = lead_id <;> simp [h]

/-- C5 (witness): the amended theorem at the spec's example — appending
`"B"` to a lead whose note is `"A"`. -/
theorem append_lead_note_correct_witness :
    pyStrip "B" ≠ "" ∧
    List.Forall₂ (fun l l' =>
      (l.id ≠ "L1" → l' = l) ∧
      (l.id = "L1" →
        l'.note = (if l.note = "" then pyStrip "B"
                   else pyStrip "B" ++ "\n\n" ++ l.note) ∧
        l'.last_contact_at = some 7 ∧
        l'.id = l.id ∧ l'.phone = l.phone ∧ l'.source = l.source ∧
        l'.model_code = l.model_code ∧ l'.name = l.name ∧
        l'.segment = l.segment ∧ l'.status = l.status ∧
        l'.remind_at = l.remind_at ∧ l'.created_at = l.created_at ∧
        l'.full_name = l.full_name ∧ l'.city = l.city ∧
        l'.interest = l.interest))
      [exampleLeadA] (append_lead_note [exampleLeadA] "L1" "B" 7) :=
  ⟨by decide,
   (append_lead_note_correct [exampleLeadA] "L1" "B" 7).2 (by decide)⟩

/-- C7: `add_order_item` appends exactly one item row whose `amount` is
`quantity * price`; `update_order_total` writes the sum of the matching
items' amounts (0 when there are none) into the matching orders'
`total_amount`, changing nothing else; and the spec's scenario — items
(qty 2, price 10) and (qty 1, price 5) — recomputes to a total of 25. -/
theorem order_total_correct :
    (∀ (db : ShopDB) (fresh order_id : String) (product_id : Option String)
       (quantity price : ℚ),
      (add_order_item db fresh order_id product_id quantity price).order_items
        = db.order_items ++
          [{ id := fresh, order_id := order_id, product_id := product_id,
             quantity := quantity, price := price,
             amount := quantity * price }] ∧
      (add_order_item db fresh order_id product_id quantity price).orders
        = db.orders) ∧
    (∀ (db : ShopDB) (order_id : String),
      (update_order_total db order_id).order_items = db.order_items ∧
      List.Forall₂ (fun o o' =>
        (o.id ≠ order_id → o' = o) ∧
        (o.id = order_id →
          o'.total_amount =
            (((db.order_items.filter
                (fun oi => oi.order_id == order_id)).map
                OrderItem.amount).sum) ∧
          o'.id = o.id ∧ o'.client_id = o.client_id ∧
          o'.created_at = o.created_at ∧ o'.status = o.status ∧
          o'.shipped_at = o.shipped_at ∧ o'.delivered_at = o.delivered_at ∧
          o'.paid_at = o.paid_at))
        db.orders (update_order_total db order_id).orders) ∧
    exampleOrderFlow.orders.map Order.total_amount = [25] := by
  refine ⟨fun db fresh order_id product_id quantity price => ⟨rfl, rfl⟩,
    fun db order_id => ⟨rfl, ?_⟩, ?_⟩
  · apply forall₂_map_self
    intro o _
    by_cases h : o.id = order_id <;> simp [h]
  · show [(2 : ℚ) * 10 + (1 * 5 + 0)] = [25]
    norm_num

/-- C8 (counterexample): with Telegram id 0 the `if tg_id:` guard skips the
lookup, so the second call re-inserts and hits the UNIQUE constraint on
`tg_id` instead of returning the first client id. -/
theorem insert_client_counterexample :
    insert_client exampleShopEmpty "u1" 0 "+70000000001" "" "" 0 =
      Except.ok ("u1", zeroClientShop) ∧
    insert_client zeroClientShop "u2" 0 "+70000000001" "" "" 1 =
      Except.error () := by
  constructor <;> rfl

/-- C8 (amended): for every nonzero Telegram id, the first `insert_client`
call succeeds with some client id, and a second call with the same id (any
phone/name/address) returns that same client id and leaves the database
unchanged — no duplicate row. -/
theorem insert_client_idempotent (db : ShopDB) (fresh1 fresh2 : String)
    (tg_id : Int) (phone name address phone2 name2 address2 : String)
    (now now2 : Nat) (h : tg_id ≠ 0) :
    ∃ cid db1,
      insert_client db fresh1 tg_id phone name address now =
        Except.ok (cid, db1) ∧
      insert_client db1 fresh2 tg_id phone2 name2 address2 now2 =
        Except.ok (cid, db1) := by
  cases hfind : db.clients.find? (fun c => c.tg_id == tg_id) with
  | some row =>
    refine ⟨row.id, db, ?_, ?_⟩ <;> (unfold insert_client; rw [if_pos h, hfind])
  | none =>
    have hany : (db.clients.any fun c => c.tg_id == tg_id) = false := by
      rw [List.any_eq_false]
      intro c hc
      exact List.find?_eq_none.mp hfind c hc
    refine ⟨fresh1,
      { db with clients := db.clients ++
          [{ id := fresh1, tg_id := tg_id, phone := phone, name := name,
             address := address, created_at := now }] }, ?_, ?_⟩
    · unfold insert_client insertClientRow
      rw [if_pos h, hfind, if_neg (by rw [hany]; exact Bool.false_ne_true)]
    · unfold insert_client
      rw [if_pos h]
      simp [List.find?_append, hfind]

end Avito

namespace Avito

/-- C8 (witness): the amended idempotence theorem at Telegram id 42 on an
empty database. -/
theorem insert_client_idempotent_witness :
    (42 : Int) ≠ 0 ∧
    ∃ cid db1,
      insert_client exampleShopEmpty "u1" 42 "+70000000002" "" "" 0 =
        Except.ok (cid, db1) ∧
      insert_client db1 "u2" 42 "+70000000003" "" "" 1 =
        Except.ok (cid, db1) :=
  ⟨by decide,
   insert_client_idempotent exampleShopEmpty "u1" "u2" 42 "+70000000002" ""
     "" "+70000000003" "" "" 0 1 (by decide)⟩

/-- The inserted image rows carry exactly the given URLs in order. -/
theorem insertImagesFrom_map_url (mc : String) (fresh : Nat → String)
    (n : Nat) (us : List String) :
    (insertImagesFrom mc fresh n us).map CatalogImage.url = us := by
  induction us generalizing n with
  | nil => rfl
  | cons u us ih => simp [insertImagesFrom, ih]

/-- The inserted image rows are numbered consecutively from `n + 1`. -/
theorem insertImagesFrom_map_sort (mc : String) (fresh : Nat → String)
    (n : Nat) (us : List String) :
    (insertImagesFrom mc fresh n us).map CatalogImage.sort_order =
      (List.range us.length).map (fun i => ((n + i : Nat) : Int) + 1) := by
  induction us generalizing n with
  | nil => rfl
  | cons u us ih =>
    rw [List.length_cons, List.range_succ_eq_map]
    simp only [insertImagesFrom, List.map_cons, List.map_map, ih (n + 1)]
    congr 1
    apply List.map_congr_left
    intro i _
    simp only [Function.comp]
    omega

/-- Every inserted image row belongs to the model. -/
theorem insertImagesFrom_model_code (mc : String) (fresh : Nat → String)
    (n : Nat) (us : List String) :
    ∀ im ∈ insertImagesFrom mc fresh n us, im.model_code = mc := by
  induction us generalizing n with
  | nil => intro im him; cases him
  | cons u us ih =>
    intro im him
    rcases List.mem_cons.mp him with him | him
    · rw [him]
    · exact ih (n + 1) im him

/-- Every inserted image row has `sort_order` above `n`. -/
theorem insertImagesFrom_sort_gt (mc : String) (fresh : Nat → String)
    (n : Nat) (us : List String) :
    ∀ im ∈ insertImagesFrom mc fresh n us, (n : Int) < im.sort_order := by
  induction us generalizing n with
  | nil => intro im him; cases him
  | cons u us ih =>
    intro im him
    rcases List.mem_cons.mp him with him | him
    · rw [him]; simp
    · have := ih (n + 1) im him
      omega

/-- The inserted image rows have strictly increasing `sort_order`. -/
theorem insertImagesFrom_pairwise (mc : String) (fresh : Nat → String)
    (n : Nat) (us : List String) :
    (insertImagesFrom mc fresh n us).Pairwise
      (fun a b => a.sort_order < b.sort_order) := by
  induction us generalizing n with
  | nil => exact List.Pairwise.nil
  | cons u us ih =>
    refine List.pairwise_cons.mpr ⟨?_, ih (n + 1)⟩
    intro b hb
    have := insertImagesFrom_sort_gt mc fresh (n + 1) us b hb
    show (n : Int) + 1 < b.sort_order
    omega

/-- `get_model` on a database whose model lookup succeeds. -/
theorem get_model_of_find (db : CatalogDB) (code : String)
    (m0 : CatalogModel)
    (hfind : db.models.find? (fun mm => mm.code == code) = some m0) :
    get_model db code = some
      { code := m0.code, name := m0.name, short := m0.short,
        price_drawings := m0.price_drawings,
        drawings_url := m0.drawings_url,
        kits := (sortLe (fun a b => strLe a.material b.material)
          (db.kits.filter (fun k => k.model_code == code))).map
          (fun k => (k.material, k.price)),
        images := (sortLe imageLe
          (db.images.filter (fun im => im.model_code == code))).map
          CatalogImage.url } := by
  unfold get_model
  rw [hfind]

/-- C6: if a model exists, replacing its images with `urls` and fetching it
again yields exactly `urls` in the given order; the stored image rows for
that model are exactly `urls` renumbered sequentially from 1. -/
theorem replace_images_get_model (db : CatalogDB) (code : String)
    (urls : List String) (fresh : Nat → String) (m : ModelView)
    (h : get_model db code = some m) :
    ∃ m', get_model (replace_images db code urls fresh) code = some m' ∧
      m'.images = urls ∧
      ((replace_images db code urls fresh).images.filter
        (fun im => im.model_code == code)).map CatalogImage.url = urls ∧
      ((replace_images db code urls fresh).images.filter
        (fun im => im.model_code == code)).map CatalogImage.sort_order =
        (List.range urls.length).map (fun i : Nat => (i : Int) + 1) := by
  cases hfind : db.models.find? (fun mm => mm.code == code) with
  | none => rw [get_model, hfind] at h; cases h
  | some m0 =>
    have hfilter : (replace_images db code urls fresh).images.filter
        (fun im => im.model_code == code) =
        insertImagesFrom code fresh 0 urls := by
      show ((db.images.filter fun im => !(im.model_code == code)) ++
        insertImagesFrom code fresh 0 urls).filter
          (fun im => im.model_code == code) = _
      rw [List.filter_append]
      have h1 : (db.images.filter fun im =>
          !(im.model_code == code)).filter
          (fun im => im.model_code == code) = [] := by
        simp [List.filter_filter]
      have h2 : (insertImagesFrom code fresh 0 urls).filter
          (fun im => im.model_code == code) =
          insertImagesFrom code fresh 0 urls := by
        rw [List.filter_eq_self]
        intro a ha
        simp [insertImagesFrom_model_code code fresh 0 urls a ha]
      rw [h1, h2, List.nil_append]
    have hsorted : sortLe imageLe (insertImagesFrom code fresh 0 urls) =
        insertImagesFrom code fresh 0 urls := by
      apply sortLe_eq_self
      apply (insertImagesFrom_pairwise code fresh 0 urls).imp
      intro a b hab
      simp [imageLe, hab]
    have hfind2 : (replace_images db code urls fresh).models.find?
        (fun mm => mm.code == code) = some m0 := hfind
    have hget := get_model_of_find (replace_images db code urls fresh) code
      m0 hfind2
    rw [hfilter, hsorted, insertImagesFrom_map_url] at hget
    refine ⟨_, hget, rfl, ?_, ?_⟩
    · rw [hfilter, insertImagesFrom_map_url]
    · rw [hfilter, insertImagesFrom_map_sort]
      simp

end Avito

namespace Avito

/-- C6 (witness): on a one-model catalog, replacing images with
`["u1", "u2"]` yields exactly those two, ordered and numbered 1, 2;
replacing again with `["u3"]` leaves exactly that one image. -/
theorem replace_images_get_model_witness :
    (∃ m', get_model (replace_images exampleCatalog "polar-6" ["u1", "u2"]
        (fun i => "img-" ++ toString i)) "polar-6" = some m' ∧
      m'.images = ["u1", "u2"] ∧
      ((replace_images exampleCatalog "polar-6" ["u1", "u2"]
        (fun i => "img-" ++ toString i)).images.filter
        (fun im => im.model_code == "polar-6")).map CatalogImage.url =
        ["u1", "u2"] ∧
      ((replace_images exampleCatalog "polar-6" ["u1", "u2"]
        (fun i => "img-" ++ toString i)).images.filter
        (fun im => im.model_code == "polar-6")).map CatalogImage.sort_order =
        (List.range (["u1", "u2"] : List String).length).map
          (fun i : Nat => (i : Int) + 1)) ∧
    (∃ m', get_model (replace_images exampleCatalog2 "polar-6" ["u3"]
        (fun i => "im2-" ++ toString i)) "polar-6" = some m' ∧
      m'.images = ["u3"] ∧
      ((replace_images exampleCatalog2 "polar-6" ["u3"]
        (fun i => "im2-" ++ toString i)).images.filter
        (fun im => im.model_code == "polar-6")).map CatalogImage.url =
        ["u3"] ∧
      ((replace_images exampleCatalog2 "polar-6" ["u3"]
        (fun i => "im2-" ++ toString i)).images.filter
        (fun im => im.model_code == "polar-6")).map CatalogImage.sort_order =
        (List.range (["u3"] : List String).length).map
          (fun i : Nat => (i : Int) + 1)) :=
  ⟨replace_images_get_model exampleCatalog "polar-6" ["u1", "u2"]
      (fun i => "img-" ++ toString i)
      ⟨"polar-6", "Polar 6", "", 0, "", [], []⟩ rfl,
   replace_images_get_model exampleCatalog2 "polar-6" ["u3"]
      (fun i => "im2-" ++ toString i)
      ⟨"polar-6", "Polar 6", "", 0, "", [], ["u1", "u2"]⟩ rfl⟩

end Avito

namespace Avito

set_option maxRecDepth 10000 in
/-- C9: `telegram_check_auth` accepts exactly the payloads whose `hash`
field equals the lowercase hex HMAC-SHA-256 of the sorted `k=v` pairs
(hash excluded) keyed by SHA-256 of the bot token; a correctly signed
sample passes, the same sample with a tampered `id` fails, and a payload
without a `hash` field fails. -/
theorem telegram_check_auth_correct :
    (∀ (data : List (String × String)) (bot_token : String),
      telegram_check_auth data bot_token = true ↔
        ∃ h, dictGet data "hash" = some h ∧
          h = hexDigest (hmacSha256 (sha256 (strBytes bot_token))
            (strBytes (dataCheckString data)))) ∧
    telegram_check_auth goodPayload sampleToken = true ∧
    telegram_check_auth tamperedPayload sampleToken = false ∧
    telegram_check_auth authFields sampleToken = false := by
  refine ⟨fun data bot_token => ?_, by decide, by decide, by decide⟩
  unfold telegram_check_auth
  cases hfind : dictGet data "hash" with
  | none =>
    constructor
    · intro he
      cases he
    · rintro ⟨h2, hh, _⟩
      cases hh
  | some ch =>
    simp only [beq_iff_eq, Option.some.injEq]
    constructor
    · intro he
      exact ⟨ch, rfl, he.symm⟩
    · rintro ⟨h2, rfl, he⟩
      exact he.symm

end Avito

namespace Avito

/-- `dedupFirst` only drops elements. -/
theorem dedupFirst_sublist (seen l : List String) :
    (dedupFirst seen l).Sublist l := by
  induction l generalizing seen with
  | nil => simp [dedupFirst]
  | cons u us ih =>
    rw [dedupFirst]
    by_cases h : seen.contains u
    · rw [if_pos h]
      exact List.Sublist.cons u (ih seen)
    · rw [if_neg h]
      exact List.Sublist.cons₂ u (ih (u :: seen))

/-- Membership in `dedupFirst`: kept iff present and not already seen. -/
theorem mem_dedupFirst (x : String) (seen l : List String) :
    x ∈ dedupFirst seen l ↔ x ∈ l ∧ seen.contains x = false := by
  induction l generalizing seen with
  | nil => simp [dedupFirst]
  | cons u us ih =>
    rw [dedupFirst]
    by_cases h : seen.contains u
    · rw [if_pos h, ih seen, List.mem_cons]
      constructor
      · rintro ⟨hx, hs⟩
        exact ⟨Or.inr hx, hs⟩
      · rintro ⟨rfl | hx, hs⟩
        · rw [h] at hs
          cases hs
        · exact ⟨hx, hs⟩
    · rw [if_neg h, List.mem_cons, List.mem_cons]
      constructor
      · rintro (rfl | hx)
        · refine ⟨Or.inl rfl, ?_⟩
          simpa using h
        · obtain ⟨hus, hcont⟩ := (ih (u :: seen)).mp hx
          rw [List.contains_cons, Bool.or_eq_false_iff] at hcont
          exact ⟨Or.inr hus, hcont.2⟩
      · rintro ⟨rfl | hx, hs⟩
        · exact Or.inl rfl
        · by_cases hxu : x = u
          · exact Or.inl hxu
          · refine Or.inr ((ih (u :: seen)).mpr ⟨hx, ?_⟩)
            rw [List.contains_cons, Bool.or_eq_false_iff]
            exact ⟨by simpa using hxu, hs⟩

/-- `dedupFirst` output has no duplicates. -/
theorem nodup_dedupFirst (seen l : List String) :
    (dedupFirst seen l).Nodup := by
  induction l generalizing seen with
  | nil => simp [dedupFirst]
  | cons u us ih =>
    rw [dedupFirst]
    by_cases h : seen.contains u
    · rw [if_pos h]
      exact ih seen
    · rw [if_neg h]
      refine List.nodup_cons.mpr ⟨?_, ih (u :: seen)⟩
      intro hu
      have hmem := (mem_dedupFirst u (u :: seen) us).mp hu
      rw [List.contains_cons, Bool.or_eq_false_iff] at hmem
      simpa using hmem.2.1

/-- Every collected line passes the `http(s)://` filter. -/
theorem collectUrls_isHttp (lines : List String) :
    ∀ u ∈ collectUrls lines, isHttpUrl u = true := by
  induction lines with
  | nil => intro u hu; cases hu
  | cons line rest ih =>
    intro u hu
    simp only [collectUrls] at hu
    by_cases h1 : pyStrip line = ""
    · rw [if_pos h1] at hu
      exact ih u hu
    · rw [if_neg h1] at hu
      by_cases h2 : isHttpUrl (pyStrip line) = true
      · rw [if_pos h2] at hu
        rcases List.mem_cons.mp hu with rfl | hu
        · exact h2
        · exact ih u hu
      · rw [if_neg h2] at hu
        exact ih u hu

/-- Every collected line is the stripped form of an input line. -/
theorem collectUrls_strip (lines : List String) :
    ∀ u ∈ collectUrls lines, u ∈ lines.map pyStrip := by
  induction lines with
  | nil => intro u hu; cases hu
  | cons line rest ih =>
    intro u hu
    simp only [collectUrls] at hu
    rw [List.map_cons, List.mem_cons]
    by_cases h1 : pyStrip line = ""
    · rw [if_pos h1] at hu
      exact Or.inr (ih u hu)
    · rw [if_neg h1] at hu
      by_cases h2 : isHttpUrl (pyStrip line) = true
      · rw [if_pos h2] at hu
        rcases List.mem_cons.mp hu with rfl | hu
        · exact Or.inl rfl
        · exact Or.inr (ih u hu)
      · rw [if_neg h2] at hu
        exact Or.inr (ih u hu)

/-- The Python `seen`-set loop equals the first-occurrence dedup of the
claim's words, restricted to the values not yet seen. -/
theorem dedupFirst_eq_filter_dedupSpecFirst (seen l : List String) :
    dedupFirst seen l =
      (dedupSpecFirst l).filter (fun y => !(seen.contains y)) := by
  induction l generalizing seen with
  | nil => simp [dedupFirst, dedupSpecFirst]
  | cons u us ih =>
    rw [dedupFirst, dedupSpecFirst, List.filter_cons]
    by_cases h : seen.contains u
    · rw [if_pos h, ih seen]
      simp only [h, Bool.not_true, Bool.false_eq_true, if_false,
        List.filter_filter]
      apply List.filter_congr
      intro y _
      by_cases hyu : y = u
      · subst hyu
        rw [h]
        rfl
      · simp [hyu]
    · rw [if_neg h, ih (u :: seen)]
      have hkeep : (!(seen.contains u)) = true := by
        simpa using h
      rw [if_pos hkeep, List.filter_filter]
      congr 1
      apply List.filter_congr
      intro y _
      rw [List.contains_cons, Bool.not_or, Bool.and_comm]

/-- With nothing seen yet, the loop is exactly the first-occurrence dedup. -/
theorem dedupFirst_eq_dedupSpecFirst (l : List String) :
    dedupFirst [] l = dedupSpecFirst l := by
  rw [dedupFirst_eq_filter_dedupSpecFirst]
  simp

/-- C10: `parse_images_text` keeps, from the trimmed input lines, exactly
those that start with `http://` or `https://`, with each URL kept at its
first occurrence and later duplicates deleted (the equality with
`dedupSpecFirst` fixes the order of first occurrence); the concrete run on
`a, b, a` keeps `a` before `b`. -/
theorem parse_images_text_correct (text : String) :
    parse_images_text text =
      dedupSpecFirst (collectUrls (pySplitlines text)) ∧
    (parse_images_text text).Sublist (collectUrls (pySplitlines text)) ∧
    (parse_images_text text).Nodup ∧
    (∀ u, u ∈ parse_images_text text ↔
      u ∈ collectUrls (pySplitlines text)) ∧
    (parse_images_text text).all isHttpUrl = true ∧
    parse_images_text text ⊆ (pySplitlines text).map pyStrip ∧
    parse_images_text "http://a\nhttp://b\nhttp://a" =
      ["http://a", "http://b"] := by
  have hmem : ∀ u, u ∈ parse_images_text text ↔
      u ∈ collectUrls (pySplitlines text) := by
    intro u
    rw [parse_images_text, mem_dedupFirst]
    simp
  refine ⟨dedupFirst_eq_dedupSpecFirst _, dedupFirst_sublist [] _,
    nodup_dedupFirst [] _, hmem, ?_, ?_, by decide⟩
  · rw [List.all_eq_true]
    intro u hu
    exact collectUrls_isHttp _ u ((hmem u).mp hu)
  · intro u hu
    exact collectUrls_strip _ u ((hmem u).mp hu)

end Avito
